import Mathlib

/-!
# Verification of the AI_Insights_Agent rules engine

Shallow embedding of `src/agent/rules_engine.py` (the deterministic
financial-risk rules engine) and proofs of the specification claims about
it.  Python dictionaries and JSON-like values are modelled by the `JVal`
inductive; Python numbers (int/float) are idealised as rationals; functions
that can raise an uncaught exception return `Except String _`, the error
string naming the Python exception class.
-/

namespace RulesEngine

/-- JSON-like Python value: the data shape `rules_engine.py` consumes.
Dictionaries are association lists in insertion order (keys unique in any
value produced by `json` parsing); ints and floats are both `jnum`. -/
inductive JVal where
  | jnull : JVal
  | jbool : Bool → JVal
  | jnum : ℚ → JVal
  | jstr : String → JVal
  | jarr : List JVal → JVal
  | jobj : List (String × JVal) → JVal

/-- Output entity of the engine: the three finding dictionaries built at
lines 48-52, 109-113 and 149-152 of `rules_engine.py`.  `asset_name` is
whatever value sits in the asset's `name` field (the code copies it
verbatim), `days_stale` is a Python int, `shortfall_usd` a Python number,
`due_date` the literal string from the liability. -/
inductive Finding where
  | staleValuation : JVal → Int → Finding
  | liquidityShortfall : ℚ → String → Finding
  | assetProtectionRisk : JVal → Finding

/-- Python truthiness (`if data`, `if last_valuation_date_str`). -/
def truthy : JVal → Bool
  | .jnull => false
  | .jbool b => b
  | .jnum q => q != 0
  | .jstr s => s != ""
  | .jarr xs => !xs.isEmpty
  | .jobj fs => !fs.isEmpty

/-- Python `isinstance(v, dict)`. -/
def isObj : JVal → Bool
  | .jobj _ => true
  | _ => false

/-- Python `v == "s"` with a string literal on the right: only an equal
string compares equal; values of any other type compare unequal. -/
def eqStr : JVal → String → Bool
  | .jstr t, s => t == s
  | _, _ => false

/-- Python `v.get(key, default)`: dictionary lookup with a default; raises
`AttributeError` when the receiver is not a dictionary. -/
def dictGet : JVal → String → JVal → Except String JVal
  | .jobj fs, k, dflt => .ok ((fs.lookup k).getD dflt)
  | _, _, _ => .error "AttributeError"

/-- Does the first character list start the second? -/
def listStarts : List Char → List Char → Bool
  | [], _ => true
  | _ :: _, [] => false
  | a :: as, b :: bs => a == b && listStarts as bs

/-- Contiguous-sublist test on character lists (Python `sub in str`). -/
def listIsInfix (needle : List Char) : List Char → Bool
  | [] => needle.isEmpty
  | c :: rest => listStarts needle (c :: rest) || listIsInfix needle rest

/-- Python `key in v` for a string `key`, in the cases the engine can
reach: key membership for a dict, `==`-membership for a list, substring
test for a string, `TypeError` otherwise. -/
def pyContains : JVal → String → Except String Bool
  | .jobj fs, k => .ok (fs.any fun p => p.1 == k)
  | .jarr xs, k => .ok (xs.any fun v => eqStr v k)
  | .jstr s, k => .ok (listIsInfix k.toList s.toList)
  | _, _ => .error "TypeError"

/-- Lines 30-34 (and 77-81, 137-141) of `rules_engine.py`: when `key` is
absent from `data`, and `data` is a truthy dict, replace `data` by the
value under its first key (`next(iter(data.keys()))`). -/
def unwrapIfMissing (data : JVal) (key : String) : Except String JVal := do
  let present ← pyContains data key
  if !present then
    if truthy data && isObj data then
      match data with
      | .jobj ((_, v) :: _) => pure v
      | _ => pure data
    else pure data
  else pure data

/-- Python `for x in v`: lists yield elements, strings yield 1-character
strings, dicts yield their keys, other values raise `TypeError`. -/
def pyIter : JVal → Except String (List JVal)
  | .jarr xs => .ok xs
  | .jstr s => .ok (s.toList.map fun c => .jstr (String.mk [c]))
  | .jobj fs => .ok (fs.map fun p => .jstr p.1)
  | _ => .error "TypeError"

/-- Gregorian leap-year test, as used by `datetime`. -/
def isLeapYear (y : Nat) : Bool := (y % 4 == 0 && y % 100 != 0) || y % 400 == 0

/-- Length of month `m` (1-12) in year `y`. -/
def daysInMonth (y m : Nat) : Nat :=
  if m == 2 then (if isLeapYear y then 29 else 28)
  else if m == 4 || m == 6 || m == 9 || m == 11 then 30
  else 31

/-- Days in year `y` strictly before the first of month `m`. -/
def daysBeforeMonth (y m : Nat) : Nat :=
  (List.range (m - 1)).foldl (fun acc i => acc + daysInMonth y (i + 1)) 0

/-- Proleptic-Gregorian day number of `y-m-d` (the `datetime.toordinal`
count: 0001-01-01 is day 1), so that `datetime` subtraction of two
midnight datetimes yields exactly the difference of ordinals in days. -/
def toOrdinal (y m d : Nat) : Nat :=
  365 * (y - 1) + (y - 1) / 4 - (y - 1) / 100 + (y - 1) / 400 + daysBeforeMonth y m + d

/-- A calendar date as (year, month, day). -/
abbrev Ymd := Nat × Nat × Nat

def ordinalOf (x : Ymd) : Nat := toOrdinal x.1 x.2.1 x.2.2

/-- Python `(a - b).days` for two midnight `datetime`s. -/
def daysBetween (a b : Ymd) : Int := (ordinalOf a : Int) - (ordinalOf b : Int)

/-- Split a character list on a separator, keeping empty groups (so
`splitOn '-' "a--b"` style inputs yield empty middle groups, as Python's
regex match would fail on them via the digit checks below). -/
def splitOn (sep : Char) : List Char → List (List Char)
  | [] => [[]]
  | c :: rest =>
    let r := splitOn sep rest
    if c == sep then [] :: r
    else
      match r with
      | g :: gs => (c :: g) :: gs
      | [] => [[c]]

/-- Numeric value of a nonempty all-ASCII-digit character group. -/
def digitsVal (cs : List Char) : Option Nat :=
  if !cs.isEmpty && cs.all Char.isDigit
  then some (cs.foldl (fun n c => 10 * n + (c.toNat - 48)) 0)
  else none

/-- Value of a day group under the `strptime` `%d` pattern
`3[0-1]|[1-2]\d|0[1-9]|[1-9]| [1-9]`: one or two digits, or a space
followed by a single digit 1-9 (the space-padded form); two-digit values
above 31 never match the pattern. -/
def dayVal (cs : List Char) : Option Nat :=
  match cs with
  | [' ', c] => if '1' ≤ c && c ≤ '9' then some (c.toNat - 48) else none
  | _ =>
    if !cs.isEmpty && cs.length ≤ 2 && cs.all Char.isDigit
    then
      let d := cs.foldl (fun n c => 10 * n + (c.toNat - 48)) 0
      if d ≤ 31 then some d else none
    else none

/-- Function `datetime.strptime(s, "%Y-%m-%d")` as a total function,
following CPython's `_strptime` patterns: `%Y` is exactly four digits,
`%m` one or two digits valued 1-12, `%d` one or two digits valued 1-31 or
a space followed by a single digit 1-9; the whole string must be consumed
and the triple must be a real calendar date with year at least 1 (year
0000 makes the `datetime` constructor raise).  `none` models the
`ValueError` the engine catches. -/
def parseYmd (s : String) : Option Ymd :=
  match splitOn '-' s.toList with
  | [ys, ms, ds] =>
    match digitsVal ys, digitsVal ms, dayVal ds with
    | some y, some m, some d =>
      if ys.length == 4 && ms.length ≤ 2
          && 1 ≤ y && 1 ≤ m && m ≤ 12 && 1 ≤ d && d ≤ daysInMonth y m
      then some (y, m, d) else none
    | _, _, _ => none
  | _ => none

/-- Function `datetime.strptime(v, "%Y-%m-%d")` on an arbitrary value, as seen
through the engine's `except (ValueError, TypeError)` handler: a non-string
raises `TypeError`, an unparsable string `ValueError`; both are caught, so
`none` stands for either. -/
def pyStrptimeYmd : JVal → Option Ymd
  | .jstr s => parseYmd s
  | _ => none

/-- Line 11 of `rules_engine.py`: `TODAY = datetime(2025, 11, 3)`. -/
def TODAY : Ymd := (2025, 11, 3)

/-- Python `isinstance(v, (int, float))` plus conversion: `bool` is a
subclass of `int`, so `True`/`False` count as 1/0; anything else is not a
number. -/
def toNum? : JVal → Option ℚ
  | .jnum q => some q
  | .jbool b => some (if b then 1 else 0)
  | _ => none

/-- Body of the `for asset in assets` loop of `check_stale_data`
(lines 38-55): at most one finding per asset; `none` covers every skip
path, including the caught `ValueError`/`TypeError` of `strptime`;
`.error` is an uncaught `AttributeError` from `.get` on a non-dict. -/
def staleStep (asset : JVal) : Except String (Option Finding) := do
  let t ← dictGet asset "type" .jnull
  if eqStr t "private_equity" then
    let lvd ← dictGet asset "last_valuation_date" .jnull
    if truthy lvd then
      match lvd with
      | .jstr s =>
        match parseYmd s with
        | none => pure none
        | some ymd =>
          let days_stale := daysBetween TODAY ymd
          if days_stale > 365 then
            let nm ← dictGet asset "name" (.jstr "Unknown")
            pure (some (.staleValuation nm days_stale))
          else pure none
      | _ => pure none
    else pure none
  else pure none

/-- The finding-accumulating `for` loop shared by all three rules
(`findings = []`, append per element, `return findings`): run `step` on
each element in order, appending each produced finding to the accumulator;
propagate the first uncaught exception. -/
def findingsLoop (step : JVal → Except String (Option Finding)) :
    List Finding → List JVal → Except String (List Finding)
  | acc, [] => pure acc
  | acc, x :: rest => do
    match (← step x) with
    | some f => findingsLoop step (acc ++ [f]) rest
    | none => findingsLoop step acc rest

/-- Rule `check_stale_data` (lines 14-57): unwrap a possibly family-office-keyed
record, read `assets` (default `[]`), and scan for private-equity assets
whose valuation is more than 365 days before `TODAY`. -/
def check_stale_data (data : JVal) : Except String (List Finding) := do
  let data ← unwrapIfMissing data "assets"
  let assetsVal ← dictGet data "assets" (.jarr [])
  let assets ← pyIter assetsVal
  findingsLoop staleStep [] assets

/-- Body of the `for account in cash_accounts` loop (lines 87-91):
`account.get('balance') or account.get('value', 0)`, added into the
running total when it is an int/float. -/
def cashStep (total : ℚ) (account : JVal) : Except String ℚ := do
  let b ← dictGet account "balance" .jnull
  let bal ← if truthy b then pure b else dictGet account "value" (.jnum 0)
  match toNum? bal with
  | some q => pure (total + q)
  | none => pure total

/-- The `total_cash` summation loop of `check_liquidity` (lines 85-91):
fold `cashStep` over the accounts starting from `0.0`. -/
def cashLoop : ℚ → List JVal → Except String ℚ
  | total, [] => pure total
  | total, a :: rest => do cashLoop (← cashStep total a) rest

/-- Body of the `for liability in liabilities` loop of `check_liquidity`
(lines 96-116).  The `call_value > total_cash` comparison sits inside the
`try`, so a non-numeric `value` raises `TypeError` there and is caught
(skip); the window test short-circuits before the comparison. -/
def liqStep (total_cash : ℚ) (liability : JVal) : Except String (Option Finding) := do
  let t ← dictGet liability "type" .jnull
  if eqStr t "capital_call" then
    let dd ← dictGet liability "due_date" .jnull
    let call_value ← dictGet liability "value" (.jnum 0)
    if truthy dd then
      match dd with
      | .jstr s =>
        match parseYmd s with
        | none => pure none
        | some ymd =>
          let days_until_due := daysBetween ymd TODAY
          if 0 ≤ days_until_due ∧ days_until_due ≤ 90 then
            match toNum? call_value with
            | none => pure none
            | some q =>
              if q > total_cash then
                pure (some (.liquidityShortfall (q - total_cash) s))
              else pure none
          else pure none
      | _ => pure none
    else pure none
  else pure none

/-- Rule `check_liquidity` (lines 60-118): unwrap, sum cash balances, then flag
capital calls due within 90 days whose value exceeds total cash. -/
def check_liquidity (data : JVal) : Except String (List Finding) := do
  let data ← unwrapIfMissing data "cash_accounts"
  let cashVal ← dictGet data "cash_accounts" (.jarr [])
  let accounts ← pyIter cashVal
  let total_cash ← cashLoop 0 accounts
  let liabVal ← dictGet data "liabilities" (.jarr [])
  let liabilities ← pyIter liabVal
  findingsLoop (liqStep total_cash) [] liabilities

/-- Body of the `for asset in assets` loop of `check_asset_protection`
(lines 145-152). -/
def protStep (asset : JVal) : Except String (Option Finding) := do
  let t ← dictGet asset "type" .jnull
  if eqStr t "real_estate" then
    let ins ← dictGet asset "insurance_status" .jnull
    if eqStr ins "inactive" then
      let nm ← dictGet asset "name" (.jstr "Unknown")
      pure (some (.assetProtectionRisk nm))
    else pure none
  else pure none

/-- Rule `check_asset_protection` (lines 121-154): unwrap, read `assets`, flag
real-estate assets whose `insurance_status` is exactly `"inactive"`. -/
def check_asset_protection (data : JVal) : Except String (List Finding) := do
  let data ← unwrapIfMissing data "assets"
  let assetsVal ← dictGet data "assets" (.jarr [])
  let assets ← pyIter assetsVal
  findingsLoop protStep [] assets

/-- Aggregator `run_all_rules` (lines 157-182): the three rules in fixed order, their
outputs concatenated. -/
def run_all_rules (data : JVal) : Except String (List Finding) := do
  let stale_data_findings ← check_stale_data data
  let liquidity_findings ← check_liquidity data
  let asset_protection_findings ← check_asset_protection data
  pure (stale_data_findings ++ liquidity_findings ++ asset_protection_findings)

/-- The per-asset stale-valuation outcome with the (impossible for dict
assets) error case erased: what `staleStep` contributes to the findings. -/
def pureStale (asset : JVal) : Option Finding := ((staleStep asset).toOption).join

/-- The per-liability liquidity outcome with the error case erased. -/
def pureLiq (total_cash : ℚ) (liability : JVal) : Option Finding :=
  ((liqStep total_cash liability).toOption).join

/-- The per-asset protection outcome with the error case erased. -/
def pureProt (asset : JVal) : Option Finding := ((protStep asset).toOption).join

/-- What one cash account adds to `total_cash`. -/
def cashContrib (account : JVal) : ℚ := ((cashStep 0 account).toOption).getD 0

/-- Total cash of a list of accounts, as summed by `check_liquidity`. -/
def totalCash (accounts : List JVal) : ℚ := (accounts.map cashContrib).sum

/-! ### Concrete records used by witnesses and counterexamples -/

/-- A private-equity asset 658 days stale at `TODAY` (spec Scenario A). -/
def wStaleAssetFields : List (String × JVal) :=
  [("type", .jstr "private_equity"), ("name", .jstr "SaaSCo"),
   ("last_valuation_date", .jstr "2024-01-15")]

def wStaleAsset : JVal := .jobj wStaleAssetFields

def wStaleFields : List (String × JVal) := [("assets", .jarr [wStaleAsset])]

/-- A real-estate asset with inactive insurance (spec Scenario D). -/
def wReAssetFields : List (String × JVal) :=
  [("type", .jstr "real_estate"), ("name", .jstr "Main St Property"),
   ("insurance_status", .jstr "inactive")]

def wReAsset : JVal := .jobj wReAssetFields

def wProtFields : List (String × JVal) := [("assets", .jarr [wReAsset])]

def wCashAccount : JVal := .jobj [("balance", .jnum 1750000)]

/-- A 2,000,000 capital call due 30 days after `TODAY` (spec Scenario B). -/
def wCallFields : List (String × JVal) :=
  [("type", .jstr "capital_call"), ("value", .jnum 2000000),
   ("due_date", .jstr "2025-12-03")]

def wCall : JVal := .jobj wCallFields

def wLiqFields : List (String × JVal) :=
  [("cash_accounts", .jarr [wCashAccount]), ("liabilities", .jarr [wCall])]

/-- A record exercising all three rules at once. -/
def wFullFields : List (String × JVal) :=
  [("assets", .jarr [wStaleAsset, wReAsset]),
   ("cash_accounts", .jarr [wCashAccount]),
   ("liabilities", .jarr [wCall])]

/-- A capital call in the 0-90-day window with no `value` field. -/
def wNoValueCallFields : List (String × JVal) :=
  [("type", .jstr "capital_call"), ("due_date", .jstr "2025-11-20")]

/-- Negative total cash with the value-less capital call above. -/
def wNegCashFields : List (String × JVal) :=
  [("cash_accounts", .jarr [.jobj [("balance", .jnum (-100))]]),
   ("liabilities", .jarr [.jobj wNoValueCallFields])]

/-- A cash account whose `balance` is present but `0`: Python's
`balance or value` falls through to `value`. -/
def cBalanceZeroFields : List (String × JVal) :=
  [("balance", .jnum 0), ("value", .jnum 500)]

/-- Entries that are dictionaries but carry malformed field values. -/
def wBadAssetFields : List (String × JVal) :=
  [("type", .jstr "private_equity"), ("name", .jstr "BadCo"),
   ("last_valuation_date", .jstr "not-a-date")]

def wBadCallFields : List (String × JVal) :=
  [("type", .jstr "capital_call"), ("due_date", .jstr "2025-11-20"),
   ("value", .jstr "oops")]

def wBadFields : List (String × JVal) :=
  [("assets", .jarr [.jobj wBadAssetFields]),
   ("liabilities", .jarr [.jobj wBadCallFields]),
   ("cash_accounts", .jarr [.jobj [("balance", .jstr "n/a")]])]

/-- A canonical record and the same record wrapped under the key
`"assets"`: the engine misreads the wrapped form. -/
def cWrapInnerFields : List (String × JVal) :=
  [("assets", .jarr [wReAsset]), ("liabilities", .jarr []),
   ("cash_accounts", .jarr [])]

def cWrapInner : JVal := .jobj cWrapInnerFields

def cWrapOuter : JVal := .jobj [("assets", cWrapInner)]

/-! ## Infrastructure lemmas -/

@[simp] theorem exBindOk {α β : Type} (a : α) (f : α → Except String β) :
    (Except.ok a >>= f) = f a := rfl

@[simp] theorem exBindErr {α β : Type} (e : String) (f : α → Except String β) :
    ((Except.error e : Except String α) >>= f) = .error e := rfl

@[simp] theorem exPure {α : Type} (a : α) : (pure a : Except String α) = Except.ok a := rfl

theorem lookup_implies_keyPresent (k : String) (l : List (String × JVal)) (v : JVal)
    (h : l.lookup k = some v) : (l.any fun p => p.1 == k) = true := by
  induction l with
  | nil => simp [List.lookup] at h
  | cons p t ih =>
    obtain ⟨a, b⟩ := p
    by_cases hk : k = a
    · subst hk; simp
    · have hba : (k == a) = false := beq_eq_false_iff_ne.mpr hk
      rw [List.lookup_cons, hba] at h
      simp only [List.any_cons, ih h, Bool.or_true]

theorem unwrap_present (fields : List (String × JVal)) (key : String) (v : JVal)
    (h : fields.lookup key = some v) :
    unwrapIfMissing (.jobj fields) key = .ok (.jobj fields) := by
  simp [unwrapIfMissing, pyContains, lookup_implies_keyPresent key fields v h]

theorem findingsLoop_filterMap (step : JVal → Except String (Option Finding))
    (pf : JVal → Option Finding) (xs : List JVal)
    (h : ∀ x ∈ xs, step x = .ok (pf x)) :
    ∀ acc, findingsLoop step acc xs = .ok (acc ++ xs.filterMap pf) := by
  induction xs with
  | nil => intro acc; simp [findingsLoop]
  | cons x rest ih =>
    intro acc
    have hx := h x (List.mem_cons_self x rest)
    have ih' := ih (fun y hy => h y (List.mem_cons_of_mem x hy))
    simp only [findingsLoop, hx, exBindOk]
    cases hpf : pf x with
    | some f => simp [ih' (acc ++ [f]), List.filterMap_cons, hpf]
    | none => simp [ih' acc, List.filterMap_cons, hpf]

theorem staleStep_obj (fs : List (String × JVal)) :
    staleStep (.jobj fs) = .ok (pureStale (.jobj fs)) := by
  obtain ⟨o, ho⟩ : ∃ o, staleStep (.jobj fs) = .ok o := by
    simp only [staleStep, dictGet, exBindOk]
    repeat' split
    all_goals exact ⟨_, rfl⟩
  rw [ho]
  simp [pureStale, ho, Except.toOption]

theorem protStep_obj (fs : List (String × JVal)) :
    protStep (.jobj fs) = .ok (pureProt (.jobj fs)) := by
  obtain ⟨o, ho⟩ : ∃ o, protStep (.jobj fs) = .ok o := by
    simp only [protStep, dictGet, exBindOk]
    repeat' split
    all_goals exact ⟨_, rfl⟩
  rw [ho]
  simp [pureProt, ho, Except.toOption]

theorem liqStep_obj (t : ℚ) (fs : List (String × JVal)) :
    liqStep t (.jobj fs) = .ok (pureLiq t (.jobj fs)) := by
  obtain ⟨o, ho⟩ : ∃ o, liqStep t (.jobj fs) = .ok o := by
    simp only [liqStep, dictGet, exBindOk]
    repeat' split
    all_goals exact ⟨_, rfl⟩
  rw [ho]
  simp [pureLiq, ho, Except.toOption]

theorem cashStep_obj (t : ℚ) (fs : List (String × JVal)) :
    cashStep t (.jobj fs) = .ok (t + cashContrib (.jobj fs)) := by
  simp only [cashStep, cashContrib, dictGet, exBindOk, exPure]
  split <;> split <;> simp [Except.toOption]

theorem cashLoop_totalCash (zs : List JVal) (hz : ∀ z ∈ zs, isObj z = true) :
    ∀ t : ℚ, cashLoop t zs = .ok (t + totalCash zs) := by
  induction zs with
  | nil => intro t; simp [cashLoop, totalCash]
  | cons z rest ih =>
    intro t
    obtain ⟨fs, rfl⟩ : ∃ fs, z = JVal.jobj fs := by
      have := hz z (List.mem_cons_self z rest)
      cases z <;> simp [isObj] at this ⊢
    simp only [cashLoop, cashStep_obj, exBindOk,
      ih (fun y hy => hz y (List.mem_cons_of_mem _ hy))]
    simp [totalCash, add_assoc]

theorem isObj_exists {a : JVal} (h : isObj a = true) : ∃ fs, a = .jobj fs := by
  cases a <;> first
    | exact ⟨_, rfl⟩
    | simp [isObj] at h

theorem staleStep_of_isObj {a : JVal} (h : isObj a = true) :
    staleStep a = .ok (pureStale a) := by
  obtain ⟨fs, rfl⟩ := isObj_exists h
  exact staleStep_obj fs

theorem protStep_of_isObj {a : JVal} (h : isObj a = true) :
    protStep a = .ok (pureProt a) := by
  obtain ⟨fs, rfl⟩ := isObj_exists h
  exact protStep_obj fs

theorem liqStep_of_isObj (t : ℚ) {a : JVal} (h : isObj a = true) :
    liqStep t a = .ok (pureLiq t a) := by
  obtain ⟨fs, rfl⟩ := isObj_exists h
  exact liqStep_obj t fs

/-- Running `check_stale_data` on a record that carries its `assets` list of
dictionaries: no exception, and the output is the in-order concatenation
of the per-asset outcomes. -/
theorem check_stale_spec (fields : List (String × JVal)) (xs : List JVal)
    (hA : fields.lookup "assets" = some (.jarr xs))
    (hobj : ∀ a ∈ xs, isObj a = true) :
    check_stale_data (.jobj fields) = .ok (xs.filterMap pureStale) := by
  have hun := unwrap_present fields "assets" _ hA
  simp only [check_stale_data, hun, exBindOk, dictGet, hA, Option.getD_some, pyIter]
  simpa using findingsLoop_filterMap staleStep pureStale xs
    (fun x hx => staleStep_of_isObj (hobj x hx)) []

/-- Running `check_asset_protection` on a record that carries its `assets` list of
dictionaries. -/
theorem check_prot_spec (fields : List (String × JVal)) (xs : List JVal)
    (hA : fields.lookup "assets" = some (.jarr xs))
    (hobj : ∀ a ∈ xs, isObj a = true) :
    check_asset_protection (.jobj fields) = .ok (xs.filterMap pureProt) := by
  have hun := unwrap_present fields "assets" _ hA
  simp only [check_asset_protection, hun, exBindOk, dictGet, hA, Option.getD_some, pyIter]
  simpa using findingsLoop_filterMap protStep pureProt xs
    (fun x hx => protStep_of_isObj (hobj x hx)) []

/-- Running `check_liquidity` on a record that carries its `cash_accounts` list of
dictionaries; `liabilities` may be absent (defaulting to the empty list). -/
theorem check_liquidity_spec (fields : List (String × JVal))
    (zs ys : List JVal)
    (hC : fields.lookup "cash_accounts" = some (.jarr zs))
    (hz : ∀ z ∈ zs, isObj z = true)
    (hL : (fields.lookup "liabilities").getD (.jarr []) = .jarr ys)
    (hy : ∀ l ∈ ys, isObj l = true) :
    check_liquidity (.jobj fields) = .ok (ys.filterMap (pureLiq (totalCash zs))) := by
  have hun := unwrap_present fields "cash_accounts" _ hC
  have hcash := cashLoop_totalCash zs hz 0
  simp only [check_liquidity, hun, exBindOk, dictGet, hC, Option.getD_some, pyIter,
    hcash, zero_add, hL]
  simpa using findingsLoop_filterMap (liqStep (totalCash zs)) (pureLiq (totalCash zs)) ys
    (fun l hl => liqStep_of_isObj (totalCash zs) (hy l hl)) []

theorem eqStr_self (s : String) : eqStr (.jstr s) s = true := by simp [eqStr]

theorem eqStr_eq_false {v : JVal} {s : String} (h : v ≠ .jstr s) : eqStr v s = false := by
  cases v with
  | jstr t =>
    simp only [eqStr]
    exact beq_eq_false_iff_ne.mpr fun hh => h (by rw [hh])
  | _ => rfl

theorem parseYmd_ne_empty {s : String} {ymd : Ymd} (h : parseYmd s = some ymd) :
    s ≠ "" := by
  intro he
  subst he
  rw [show parseYmd "" = none from rfl] at h
  cases h

/-- Per-asset outcome of the stale-valuation rule for a private-equity
asset whose valuation date parses: a finding exactly when the valuation is
strictly more than 365 days old. -/
theorem pureStale_char (afs : List (String × JVal)) (s : String) (ymd : Ymd)
    (htype : (afs.lookup "type").getD .jnull = .jstr "private_equity")
    (hdate : (afs.lookup "last_valuation_date").getD .jnull = .jstr s)
    (hparse : parseYmd s = some ymd) :
    pureStale (.jobj afs) =
      if daysBetween TODAY ymd > 365
      then some (.staleValuation ((afs.lookup "name").getD (.jstr "Unknown"))
                  (daysBetween TODAY ymd))
      else none := by
  have htr : truthy (JVal.jstr s) = true := by
    simpa [truthy] using bne_iff_ne.mpr (parseYmd_ne_empty hparse)
  have hst : staleStep (.jobj afs) =
      .ok (if daysBetween TODAY ymd > 365
        then some (Finding.staleValuation ((afs.lookup "name").getD (.jstr "Unknown"))
                    (daysBetween TODAY ymd))
        else none) := by
    simp only [staleStep, dictGet, exBindOk, exPure, htype, hdate, hparse, htr,
      eqStr_self, if_true]
    by_cases hd : daysBetween TODAY ymd > 365
    · simp [hd]
    · simp [hd]
  simp [pureStale, hst, Except.toOption]

/-- Per-asset outcome of the asset-protection rule for a real-estate
asset: a finding exactly when `insurance_status` is the string
`"inactive"`. -/
theorem pureProt_char (afs : List (String × JVal))
    (htype : (afs.lookup "type").getD .jnull = .jstr "real_estate") :
    ((afs.lookup "insurance_status").getD .jnull = .jstr "inactive" →
      pureProt (.jobj afs)
        = some (.assetProtectionRisk ((afs.lookup "name").getD (.jstr "Unknown"))))
    ∧ ((afs.lookup "insurance_status").getD .jnull ≠ .jstr "inactive" →
      pureProt (.jobj afs) = none) := by
  constructor
  · intro hins
    simp [pureProt, protStep, dictGet, htype, hins, eqStr_self, Except.toOption]
  · intro hins
    simp [pureProt, protStep, dictGet, htype, eqStr_self, eqStr_eq_false hins,
      Except.toOption]

/-- Per-liability outcome of the liquidity rule for a capital call with a
parsable due date and a numeric (or defaulted) `value`: a finding exactly
when the call is due within 0-90 days and exceeds total cash. -/
theorem pureLiq_char (lfs : List (String × JVal)) (s : String) (ymd : Ymd)
    (q t : ℚ)
    (htype : (lfs.lookup "type").getD .jnull = .jstr "capital_call")
    (hdd : (lfs.lookup "due_date").getD .jnull = .jstr s)
    (hparse : parseYmd s = some ymd)
    (hval : (lfs.lookup "value").getD (.jnum 0) = .jnum q) :
    pureLiq t (.jobj lfs) =
      if 0 ≤ daysBetween ymd TODAY ∧ daysBetween ymd TODAY ≤ 90 ∧ q > t
      then some (.liquidityShortfall (q - t) s)
      else none := by
  have htr : truthy (JVal.jstr s) = true := by
    simpa [truthy] using bne_iff_ne.mpr (parseYmd_ne_empty hparse)
  have hnum : toNum? (JVal.jnum q) = some q := rfl
  have hst : liqStep t (.jobj lfs) =
      .ok (if 0 ≤ daysBetween ymd TODAY ∧ daysBetween ymd TODAY ≤ 90 ∧ q > t
        then some (Finding.liquidityShortfall (q - t) s)
        else none) := by
    simp only [liqStep, dictGet, exBindOk, exPure, htype, hdd, hparse, hval, htr,
      hnum, eqStr_self, if_true]
    by_cases h1 : 0 ≤ daysBetween ymd TODAY ∧ daysBetween ymd TODAY ≤ 90
    · by_cases h2 : q > t
      · simp [h1, h2]
      · simp [h1, h2]
    · have : ¬(0 ≤ daysBetween ymd TODAY ∧ daysBetween ymd TODAY ≤ 90 ∧ q > t) := by
        tauto
      simp [h1, this]
  simp [pureLiq, hst, Except.toOption]

/-- Inversion: any liquidity-shortfall finding a liability produces comes
from a dictionary liability and carries exactly `value - total_cash` for a
numeric (or defaulted-to-0) `value` strictly above total cash. -/
theorem pureLiq_some_inv (t : ℚ) (l : JVal) (amt : ℚ) (dd : String)
    (h : pureLiq t l = some (.liquidityShortfall amt dd)) :
    ∃ lfs, l = .jobj lfs
      ∧ ∃ q, toNum? ((lfs.lookup "value").getD (.jnum 0)) = some q
        ∧ amt = q - t ∧ q > t := by
  cases l with
  | jobj lfs =>
    refine ⟨lfs, rfl, ?_⟩
    simp only [pureLiq, liqStep, dictGet, exBindOk, exPure] at h
    split at h
    · split at h
      · split at h
        · split at h
          · simp [Except.toOption] at h
          · split at h
            · split at h
              · simp [Except.toOption] at h
              · split at h
                · rename_i hwin q hq hgt
                  simp [Except.toOption] at h
                  exact ⟨q, hq, h.1.symm, hgt⟩
                · simp [Except.toOption] at h
            · simp [Except.toOption] at h
        · simp [Except.toOption] at h
      · simp [Except.toOption] at h
    · simp [Except.toOption] at h
  | jnull => simp [pureLiq, liqStep, dictGet, Except.toOption] at h
  | jbool b => simp [pureLiq, liqStep, dictGet, Except.toOption] at h
  | jnum q => simp [pureLiq, liqStep, dictGet, Except.toOption] at h
  | jstr s => simp [pureLiq, liqStep, dictGet, Except.toOption] at h
  | jarr xs => simp [pureLiq, liqStep, dictGet, Except.toOption] at h

/-- A private-equity asset whose date does not parse is skipped. -/
theorem pureStale_skip (afs : List (String × JVal))
    (h : pyStrptimeYmd ((afs.lookup "last_valuation_date").getD .jnull) = none) :
    pureStale (.jobj afs) = none := by
  simp only [pureStale, staleStep, dictGet, exBindOk, exPure]
  split
  · split
    · split
      · rename_i s hs
        rw [hs] at h
        rw [show pyStrptimeYmd (JVal.jstr s) = parseYmd s from rfl] at h
        rw [h]
        simp [Except.toOption]
      · simp [Except.toOption]
    · simp [Except.toOption]
  · simp [Except.toOption]

/-- A capital call whose due date does not parse is skipped. -/
theorem pureLiq_skip_date (t : ℚ) (lfs : List (String × JVal))
    (h : pyStrptimeYmd ((lfs.lookup "due_date").getD .jnull) = none) :
    pureLiq t (.jobj lfs) = none := by
  simp only [pureLiq, liqStep, dictGet, exBindOk, exPure]
  split
  · split
    · split
      · rename_i s hs
        rw [hs] at h
        rw [show pyStrptimeYmd (JVal.jstr s) = parseYmd s from rfl] at h
        rw [h]
        simp [Except.toOption]
      · simp [Except.toOption]
    · simp [Except.toOption]
  · simp [Except.toOption]

/-- A capital call whose (resolved) `value` is not numeric is skipped: the
`call_value > total_cash` comparison raises `TypeError` inside the `try`
and the except clause moves on. -/
theorem pureLiq_skip_value (t : ℚ) (lfs : List (String × JVal))
    (h : toNum? ((lfs.lookup "value").getD (.jnum 0)) = none) :
    pureLiq t (.jobj lfs) = none := by
  simp only [pureLiq, liqStep, dictGet, exBindOk, exPure]
  split
  · split
    · split
      · split
        · simp [Except.toOption]
        · split
          · rw [show toNum? ((lfs.lookup "value").getD (.jnum 0)) = none from h]
            simp [Except.toOption]
          · simp [Except.toOption]
      · simp [Except.toOption]
    · simp [Except.toOption]
  · simp [Except.toOption]

/-- A record wrapped one level under a single key other than the probed
one is unwrapped to the inner value. -/
theorem unwrap_single_wrap (k key : String) (R : JVal) (hk : (k == key) = false) :
    unwrapIfMissing (.jobj [(k, R)]) key = .ok R := by
  simp [unwrapIfMissing, pyContains, hk, truthy, isObj]

/-! ### Evaluation lemmas for the concrete witness records
(`Rat` addition is irreducible here, so the few rational sums are
established by `norm_num` rather than by reduction). -/

theorem wCash_truthy : truthy (JVal.jnum 1750000) = true := by
  simp only [truthy, bne_iff_ne, ne_eq]
  norm_num

theorem wTotalCash_eq : totalCash [wCashAccount] = 1750000 := by
  have h2 : cashContrib wCashAccount = 0 + 1750000 := by
    simp [cashContrib, wCashAccount, cashStep, dictGet, List.lookup, wCash_truthy,
      toNum?, Except.toOption]
  simp [totalCash, h2]

theorem wLiq_filterMap :
    [wCall].filterMap (pureLiq (totalCash [wCashAccount]))
      = [Finding.liquidityShortfall 250000 "2025-12-03"] := by
  rw [wTotalCash_eq]
  have hc := pureLiq_char wCallFields "2025-12-03" (2025, 12, 3) 2000000 1750000
    rfl rfl rfl rfl
  have hone : pureLiq 1750000 wCall
      = some (.liquidityShortfall ((2000000 : ℚ) - 1750000) "2025-12-03") := by
    show pureLiq 1750000 (.jobj wCallFields) = _
    rw [hc, if_pos ⟨by decide, by decide, by norm_num⟩]
  rw [List.filterMap_cons, hone]
  norm_num

/-! ## The specification claims -/

/-- C1 (Stale-valuation rule): for every asset of the record with type
`"private_equity"` and a `last_valuation_date` that parses as a
`YYYY-MM-DD` calendar date, `check_stale_data` emits exactly one
`StaleValuation` finding — carrying the asset's name (default
`"Unknown"`) and `days_stale = TODAY - last_valuation_date` in whole
days — iff `days_stale > 365`; the rule's whole output is the in-order
concatenation of these per-asset outcomes, so `days_stale = 365` yields
no finding and `days_stale = 366` exactly one. -/
theorem claim_stale_valuation_rule
    (fields : List (String × JVal)) (xs : List JVal)
    (afs : List (String × JVal)) (s : String) (ymd : Ymd)
    (hA : fields.lookup "assets" = some (.jarr xs))
    (hobj : ∀ a ∈ xs, isObj a = true)
    (_hmem : JVal.jobj afs ∈ xs)
    (htype : (afs.lookup "type").getD .jnull = .jstr "private_equity")
    (hdate : (afs.lookup "last_valuation_date").getD .jnull = .jstr s)
    (hparse : parseYmd s = some ymd) :
    check_stale_data (.jobj fields) = .ok (xs.filterMap pureStale)
    ∧ (daysBetween TODAY ymd > 365 →
        pureStale (.jobj afs)
          = some (.staleValuation ((afs.lookup "name").getD (.jstr "Unknown"))
              (daysBetween TODAY ymd)))
    ∧ (daysBetween TODAY ymd ≤ 365 → pureStale (.jobj afs) = none) := by
  refine ⟨check_stale_spec fields xs hA hobj, ?_, ?_⟩
  · intro hd
    rw [pureStale_char afs s ymd htype hdate hparse, if_pos hd]
  · intro hd
    rw [pureStale_char afs s ymd htype hdate hparse, if_neg (not_lt.mpr hd)]

/-- Witness for C1: spec Scenario A, a private-equity asset 658 days
stale produces exactly one finding with its name and staleness. -/
theorem claim_stale_valuation_rule_witness :
    check_stale_data (.jobj wStaleFields) = .ok ([wStaleAsset].filterMap pureStale)
    ∧ pureStale wStaleAsset = some (.staleValuation (.jstr "SaaSCo") 658) := by
  have h := claim_stale_valuation_rule wStaleFields [wStaleAsset] wStaleAssetFields
    "2024-01-15" (2024, 1, 15) rfl
    (by intro a ha; rw [List.mem_singleton] at ha; subst ha; rfl)
    (List.mem_singleton.mpr rfl) rfl rfl rfl
  refine ⟨h.1, ?_⟩
  have h2 := h.2.1 (by decide)
  rw [show pureStale wStaleAsset = pureStale (JVal.jobj wStaleAssetFields) from rfl, h2]
  rfl

/-- C4 (Aggregation order): whenever the three rules individually return
finding lists `s`, `l` and `p` on the same record (and hence the same
`TODAY`), `run_all_rules` returns exactly `s ++ l ++ p`: stale-valuation
findings first, then liquidity, then protection, each rule's internal
order preserved regardless of the input ordering. -/
theorem claim_aggregation_order (data : JVal) (s l p : List Finding)
    (h1 : check_stale_data data = .ok s)
    (h2 : check_liquidity data = .ok l)
    (h3 : check_asset_protection data = .ok p) :
    run_all_rules data = .ok (s ++ l ++ p) := by
  simp [run_all_rules, h1, h2, h3]

/-- Witness for C4: a record triggering all three rules yields the three
findings in rule order. -/
theorem claim_aggregation_order_witness :
    run_all_rules (.jobj wFullFields)
      = .ok ([Finding.staleValuation (.jstr "SaaSCo") 658]
          ++ [Finding.liquidityShortfall 250000 "2025-12-03"]
          ++ [Finding.assetProtectionRisk (.jstr "Main St Property")]) := by
  have hobj : ∀ a ∈ [wStaleAsset, wReAsset], isObj a = true := by
    intro a ha
    simp only [List.mem_cons, List.not_mem_nil, or_false] at ha
    rcases ha with rfl | rfl
    · rfl
    · rfl
  have h1 : check_stale_data (.jobj wFullFields)
      = .ok [Finding.staleValuation (.jstr "SaaSCo") 658] := by
    rw [check_stale_spec wFullFields [wStaleAsset, wReAsset] rfl hobj]
    rfl
  have h2 : check_liquidity (.jobj wFullFields)
      = .ok [Finding.liquidityShortfall 250000 "2025-12-03"] := by
    rw [check_liquidity_spec wFullFields [wCashAccount] [wCall] rfl
      (by intro z hz; rw [List.mem_singleton] at hz; subst hz; rfl) rfl
      (by intro l hl; rw [List.mem_singleton] at hl; subst hl; rfl)]
    rw [wLiq_filterMap]
  have h3 : check_asset_protection (.jobj wFullFields)
      = .ok [Finding.assetProtectionRisk (.jstr "Main St Property")] := by
    rw [check_prot_spec wFullFields [wStaleAsset, wReAsset] rfl hobj]
    rfl
  exact claim_aggregation_order (.jobj wFullFields) _ _ _ h1 h2 h3

/-- C5 (Asset-protection rule): for every asset of the record with type
`"real_estate"`, `check_asset_protection` emits exactly one
`AssetProtectionRisk` finding carrying the asset's name iff its
`insurance_status` equals the literal string `"inactive"`
(case-sensitively); any other value — including an absent field, which
reads as null — produces no finding.  The rule's whole output is the
in-order concatenation of these per-asset outcomes. -/
theorem claim_asset_protection_rule
    (fields : List (String × JVal)) (xs : List JVal) (afs : List (String × JVal))
    (hA : fields.lookup "assets" = some (.jarr xs))
    (hobj : ∀ a ∈ xs, isObj a = true)
    (_hmem : JVal.jobj afs ∈ xs)
    (htype : (afs.lookup "type").getD .jnull = .jstr "real_estate") :
    check_asset_protection (.jobj fields) = .ok (xs.filterMap pureProt)
    ∧ ((afs.lookup "insurance_status").getD .jnull = .jstr "inactive" →
        pureProt (.jobj afs)
          = some (.assetProtectionRisk ((afs.lookup "name").getD (.jstr "Unknown"))))
    ∧ ((afs.lookup "insurance_status").getD .jnull ≠ .jstr "inactive" →
        pureProt (.jobj afs) = none) :=
  ⟨check_prot_spec fields xs hA hobj,
   (pureProt_char afs htype).1, (pureProt_char afs htype).2⟩

/-- Witness for C5: spec Scenario D, an uninsured real-estate asset
produces exactly one finding with its name. -/
theorem claim_asset_protection_rule_witness :
    check_asset_protection (.jobj wProtFields) = .ok ([wReAsset].filterMap pureProt)
    ∧ pureProt wReAsset = some (.assetProtectionRisk (.jstr "Main St Property")) := by
  have h := claim_asset_protection_rule wProtFields [wReAsset] wReAssetFields rfl
    (by intro a ha; rw [List.mem_singleton] at ha; subst ha; rfl)
    (List.mem_singleton.mpr rfl) rfl
  exact ⟨h.1, h.2.1 rfl⟩

/-- C2 (Liquidity-shortfall trigger): for every liability of the record
with type `"capital_call"`, a parsable `due_date` and a numeric `value`,
`check_liquidity` emits a `LiquidityShortfall` finding carrying the
literal due-date string iff `0 ≤ days_until_due ≤ 90` and
`value > total_cash`; in particular calls already past due or due more
than 90 days out are never flagged regardless of value versus cash, and
the rule's whole output is the in-order concatenation of the independent
per-liability outcomes. -/
theorem claim_liquidity_trigger
    (fields : List (String × JVal)) (zs ys : List JVal)
    (lfs : List (String × JVal)) (s : String) (ymd : Ymd) (q : ℚ)
    (hC : fields.lookup "cash_accounts" = some (.jarr zs))
    (hz : ∀ z ∈ zs, isObj z = true)
    (hL : (fields.lookup "liabilities").getD (.jarr []) = .jarr ys)
    (hy : ∀ l ∈ ys, isObj l = true)
    (_hmem : JVal.jobj lfs ∈ ys)
    (htype : (lfs.lookup "type").getD .jnull = .jstr "capital_call")
    (hdd : (lfs.lookup "due_date").getD .jnull = .jstr s)
    (hparse : parseYmd s = some ymd)
    (hval : lfs.lookup "value" = some (.jnum q)) :
    check_liquidity (.jobj fields) = .ok (ys.filterMap (pureLiq (totalCash zs)))
    ∧ (pureLiq (totalCash zs) (.jobj lfs)
         = some (.liquidityShortfall (q - totalCash zs) s)
       ↔ 0 ≤ daysBetween ymd TODAY ∧ daysBetween ymd TODAY ≤ 90
         ∧ q > totalCash zs)
    ∧ (¬(0 ≤ daysBetween ymd TODAY ∧ daysBetween ymd TODAY ≤ 90) →
        pureLiq (totalCash zs) (.jobj lfs) = none) := by
  have hval' : (lfs.lookup "value").getD (.jnum 0) = .jnum q := by rw [hval]; rfl
  have hchar := pureLiq_char lfs s ymd q (totalCash zs) htype hdd hparse hval'
  refine ⟨check_liquidity_spec fields zs ys hC hz hL hy, ?_, ?_⟩
  · rw [hchar]
    by_cases hcond : 0 ≤ daysBetween ymd TODAY ∧ daysBetween ymd TODAY ≤ 90
        ∧ q > totalCash zs
    · simp [hcond]
    · simp [hcond]
  · intro hwin
    rw [hchar, if_neg (by tauto)]

/-- Witness for C2: spec Scenario B, cash of 1,750,000 against a
2,000,000 capital call due 30 days out yields one shortfall finding with
the literal due date. -/
theorem claim_liquidity_trigger_witness :
    check_liquidity (.jobj wLiqFields)
      = .ok [Finding.liquidityShortfall 250000 "2025-12-03"] := by
  have h := claim_liquidity_trigger wLiqFields [wCashAccount] [wCall] wCallFields
    "2025-12-03" (2025, 12, 3) 2000000 rfl
    (by intro z hz; rw [List.mem_singleton] at hz; subst hz; rfl) rfl
    (by intro l hl; rw [List.mem_singleton] at hl; subst hl; rfl)
    (List.mem_singleton.mpr rfl) rfl rfl rfl rfl
  rw [h.1, wLiq_filterMap]

/-- C3 (Shortfall amount): every `LiquidityShortfall` finding that
`check_liquidity` emits carries exactly `value - total_cash` for the
numeric (or defaulted) `value` of some liability of the record, with
`total_cash` the sum of all cash-account balances, and that amount is
strictly positive. -/
theorem claim_shortfall_amount
    (fields : List (String × JVal)) (zs ys : List JVal)
    (hC : fields.lookup "cash_accounts" = some (.jarr zs))
    (hz : ∀ z ∈ zs, isObj z = true)
    (hL : (fields.lookup "liabilities").getD (.jarr []) = .jarr ys)
    (hy : ∀ l ∈ ys, isObj l = true) :
    check_liquidity (.jobj fields) = .ok (ys.filterMap (pureLiq (totalCash zs)))
    ∧ ∀ amt dd, Finding.liquidityShortfall amt dd ∈ ys.filterMap (pureLiq (totalCash zs)) →
        0 < amt
        ∧ ∃ lfs, JVal.jobj lfs ∈ ys
          ∧ ∃ q, toNum? ((lfs.lookup "value").getD (.jnum 0)) = some q
            ∧ amt = q - totalCash zs := by
  refine ⟨check_liquidity_spec fields zs ys hC hz hL hy, ?_⟩
  intro amt dd hfm
  rw [List.mem_filterMap] at hfm
  obtain ⟨l, hl, hpl⟩ := hfm
  obtain ⟨lfs, rfl, q, hq, hamt, hgt⟩ := pureLiq_some_inv (totalCash zs) l amt dd hpl
  exact ⟨by rw [hamt]; exact sub_pos.mpr hgt, lfs, hl, q, hq, hamt⟩

/-- Witness for C3: in Scenario B the emitted shortfall is 250,000, which
equals 2,000,000 - 1,750,000 and is strictly positive. -/
theorem claim_shortfall_amount_witness :
    (0 : ℚ) < 250000
    ∧ check_liquidity (.jobj wLiqFields)
        = .ok [Finding.liquidityShortfall 250000 "2025-12-03"] := by
  have h := claim_shortfall_amount wLiqFields [wCashAccount] [wCall] rfl
    (by intro z hz; rw [List.mem_singleton] at hz; subst hz; rfl) rfl
    (by intro l hl; rw [List.mem_singleton] at hl; subst hl; rfl)
  have hfm : Finding.liquidityShortfall 250000 "2025-12-03"
      ∈ [wCall].filterMap (pureLiq (totalCash [wCashAccount])) := by
    rw [wLiq_filterMap]
    exact List.mem_singleton.mpr rfl
  exact ⟨(h.2 250000 "2025-12-03" hfm).1, by rw [h.1, wLiq_filterMap]⟩

/-- Counterexample to C6 as stated: the top-level input
`{"liabilities": []}` is a mapping with `assets` and `cash_accounts`
absent, yet `check_stale_data` raises `AttributeError` instead of treating
the absent containers as empty — the unwrap heuristic fires on the
nonempty mapping and descends into the list value. -/
theorem claim_absent_containers_counterexample :
    check_stale_data (.jobj [("liabilities", .jarr [])])
      = .error "AttributeError" := rfl

/-- C6 as amended: absent containers default to empty sequences without
error only when no unwrap is triggered — i.e. when the top-level mapping
is empty, or contains the rule's probe key (`assets` for the asset rules,
`cash_accounts` for liquidity).  In particular an absent `liabilities`
container always defaults to empty, and the empty mapping yields an empty
findings list with no error; but a nonempty mapping lacking a probe key
is unwrapped into its first value and may then error. -/
theorem claim_absent_containers_amended
    (fields : List (String × JVal)) (xs zs : List JVal)
    (hA : fields.lookup "assets" = some (.jarr xs))
    (hC : fields.lookup "cash_accounts" = some (.jarr zs))
    (hL : fields.lookup "liabilities" = none)
    (hx : ∀ a ∈ xs, isObj a = true)
    (hz : ∀ z ∈ zs, isObj z = true) :
    run_all_rules (.jobj fields)
      = .ok (xs.filterMap pureStale ++ xs.filterMap pureProt)
    ∧ run_all_rules (.jobj []) = .ok [] := by
  constructor
  · have h1 := check_stale_spec fields xs hA hx
    have h2 := check_liquidity_spec fields zs [] hC hz (by rw [hL]; rfl)
      (by intro l hl; exact absurd hl (List.not_mem_nil l))
    have h3 := check_prot_spec fields xs hA hx
    simp [run_all_rules, h1, h2, h3]
  · rfl

/-- Witness for amended C6: a mapping with empty `assets` and
`cash_accounts` and no `liabilities` at all produces an empty findings
list and no error. -/
theorem claim_absent_containers_amended_witness :
    run_all_rules (.jobj [("assets", JVal.jarr []), ("cash_accounts", JVal.jarr [])])
      = .ok [] := by
  have h := claim_absent_containers_amended
    [("assets", JVal.jarr []), ("cash_accounts", JVal.jarr [])] [] [] rfl rfl rfl
    (by intro a ha; exact absurd ha (List.not_mem_nil a))
    (by intro z hz; exact absurd hz (List.not_mem_nil z))
  simpa using h.1

/-- Counterexample to C7 as stated: an account with the `balance` field
present and equal to `0` does not contribute its balance — Python's
`balance or value` is a truthiness test, so the account contributes its
`value` of 500 instead of 0. -/
theorem claim_cash_balance_counterexample :
    cBalanceZeroFields.lookup "balance" = some (.jnum 0)
    ∧ cashContrib (.jobj cBalanceZeroFields) = 500 := by
  refine ⟨rfl, ?_⟩
  have h0 : truthy (JVal.jnum 0) = false := by
    simp [truthy]
  simp [cashContrib, cBalanceZeroFields, cashStep, dictGet, List.lookup, h0,
    toNum?, Except.toOption]

/-- C7 as amended: a cash account's contribution is read from `balance`
only when that value is truthy (non-zero, non-null, non-empty); a falsy
or absent `balance` falls through to `value` (default 0), and a resolved
value that is not numeric contributes exactly zero. -/
theorem claim_cash_balance_amended
    (afs : List (String × JVal)) (q v : ℚ) (b : JVal) :
    (afs.lookup "balance" = some (.jnum q) → q ≠ 0 →
      cashContrib (.jobj afs) = q)
    ∧ (truthy ((afs.lookup "balance").getD .jnull) = false →
        afs.lookup "value" = some (.jnum v) → cashContrib (.jobj afs) = v)
    ∧ (truthy ((afs.lookup "balance").getD .jnull) = false →
        afs.lookup "value" = none → cashContrib (.jobj afs) = 0)
    ∧ (afs.lookup "balance" = some b → truthy b = true → toNum? b = none →
        cashContrib (.jobj afs) = 0) := by
  refine ⟨?_, ?_, ?_, ?_⟩
  · intro hb hq
    have htr : truthy (JVal.jnum q) = true := by
      simpa [truthy] using bne_iff_ne.mpr hq
    simp [cashContrib, cashStep, dictGet, hb, htr, toNum?, Except.toOption]
  · intro htr hv
    simp [cashContrib, cashStep, dictGet, htr, hv, toNum?, Except.toOption]
  · intro htr hv
    simp [cashContrib, cashStep, dictGet, htr, hv, toNum?, Except.toOption]
  · intro hb htr hn
    simp [cashContrib, cashStep, dictGet, hb, htr, hn, Except.toOption]

/-- Witness for amended C7: a truthy numeric balance of 250 wins over a
`value` of 500. -/
theorem claim_cash_balance_amended_witness :
    cashContrib (.jobj [("balance", JVal.jnum 250), ("value", JVal.jnum 500)])
      = 250 :=
  (claim_cash_balance_amended
    [("balance", JVal.jnum 250), ("value", JVal.jnum 500)] 250 500 .jnull).1
    rfl (by norm_num)

/-- Counterexample to C8 as stated: wrapping a canonical record under the
identifier key `"assets"` does not yield the same findings — the outer
mapping then contains the probed key, no unwrap happens, the engine
iterates the inner record's keys as if they were assets, and
`check_stale_data` raises `AttributeError` (while the unwrapped record
evaluates normally). -/
theorem claim_unwrap_counterexample :
    run_all_rules cWrapOuter ≠ run_all_rules cWrapInner := by
  have h1 : run_all_rules cWrapOuter = .error "AttributeError" := rfl
  have h2 : run_all_rules cWrapInner
      = .ok [Finding.assetProtectionRisk (.jstr "Main St Property")] := rfl
  rw [h1, h2]
  intro h
  exact Except.noConfusion h

/-- C8 as amended: for every canonical record `R` containing the expected
top-level fields (`assets`, `liabilities`, `cash_accounts`) and every
identifier key `k` other than the probe keys `"assets"` and
`"cash_accounts"`, running the engine on the wrapped record `{k: R}`
yields exactly the same result as running it on `R` directly; for `k`
equal to a probe key the unwrap is skipped and the equivalence fails. -/
theorem claim_unwrap_amended (k : String) (rf : List (String × JVal))
    (av cv lv : JVal)
    (hk1 : k ≠ "assets") (hk2 : k ≠ "cash_accounts")
    (hA : rf.lookup "assets" = some av)
    (hC : rf.lookup "cash_accounts" = some cv)
    (_hL : rf.lookup "liabilities" = some lv) :
    run_all_rules (.jobj [(k, .jobj rf)]) = run_all_rules (.jobj rf) := by
  have hk1' : (k == "assets") = false := beq_eq_false_iff_ne.mpr hk1
  have hk2' : (k == "cash_accounts") = false := beq_eq_false_iff_ne.mpr hk2
  have e1 : check_stale_data (.jobj [(k, .jobj rf)]) = check_stale_data (.jobj rf) := by
    simp only [check_stale_data, unwrap_single_wrap k "assets" _ hk1',
      unwrap_present rf "assets" av hA]
  have e2 : check_liquidity (.jobj [(k, .jobj rf)]) = check_liquidity (.jobj rf) := by
    simp only [check_liquidity, unwrap_single_wrap k "cash_accounts" _ hk2',
      unwrap_present rf "cash_accounts" cv hC]
  have e3 : check_asset_protection (.jobj [(k, .jobj rf)])
      = check_asset_protection (.jobj rf) := by
    simp only [check_asset_protection, unwrap_single_wrap k "assets" _ hk1',
      unwrap_present rf "assets" av hA]
  simp only [run_all_rules, e1, e2, e3]

/-- Witness for amended C8: the same record wrapped under the
family-office key `"FO_1"` evaluates exactly as the bare record. -/
theorem claim_unwrap_amended_witness :
    run_all_rules (.jobj [("FO_1", cWrapInner)]) = run_all_rules cWrapInner :=
  claim_unwrap_amended "FO_1" cWrapInnerFields _ _ _
    (by decide) (by decide) rfl rfl rfl

/-- C9 (Data-quality totality): on a record whose three containers are
present as lists of dictionaries, no individually malformed entry — a
malformed or missing date, a missing optional field, a wrong-typed
balance or value — makes any rule raise: `run_all_rules` returns
normally with the in-order concatenation of per-entry outcomes, and an
entry with an unparsable date or a non-numeric value is skipped with no
finding while evaluation of the remaining entries continues. -/
theorem claim_data_quality
    (fields : List (String × JVal)) (xs ys zs : List JVal)
    (hA : fields.lookup "assets" = some (.jarr xs))
    (hL : fields.lookup "liabilities" = some (.jarr ys))
    (hC : fields.lookup "cash_accounts" = some (.jarr zs))
    (hx : ∀ a ∈ xs, isObj a = true)
    (hy : ∀ l ∈ ys, isObj l = true)
    (hz : ∀ z ∈ zs, isObj z = true) :
    run_all_rules (.jobj fields)
      = .ok (xs.filterMap pureStale
          ++ ys.filterMap (pureLiq (totalCash zs))
          ++ xs.filterMap pureProt)
    ∧ (∀ afs, JVal.jobj afs ∈ xs →
        pyStrptimeYmd ((afs.lookup "last_valuation_date").getD .jnull) = none →
        pureStale (.jobj afs) = none)
    ∧ (∀ lfs, JVal.jobj lfs ∈ ys →
        pyStrptimeYmd ((lfs.lookup "due_date").getD .jnull) = none →
        pureLiq (totalCash zs) (.jobj lfs) = none)
    ∧ (∀ lfs, JVal.jobj lfs ∈ ys →
        toNum? ((lfs.lookup "value").getD (.jnum 0)) = none →
        pureLiq (totalCash zs) (.jobj lfs) = none) := by
  have hL' : (fields.lookup "liabilities").getD (.jarr []) = .jarr ys := by
    rw [hL]; rfl
  refine ⟨?_, ?_, ?_, ?_⟩
  · have h1 := check_stale_spec fields xs hA hx
    have h2 := check_liquidity_spec fields zs ys hC hz hL' hy
    have h3 := check_prot_spec fields xs hA hx
    simp [run_all_rules, h1, h2, h3]
  · intro afs _ hbad
    exact pureStale_skip afs hbad
  · intro lfs _ hbad
    exact pureLiq_skip_date (totalCash zs) lfs hbad
  · intro lfs _ hbad
    exact pureLiq_skip_value (totalCash zs) lfs hbad

/-- Witness for C9: a record whose private-equity asset has an unparsable
date, whose capital call has a string `value` and whose cash account has a
string balance evaluates without error to an empty findings list, each
malformed entry skipped. -/
theorem claim_data_quality_witness :
    run_all_rules (.jobj wBadFields) = .ok []
    ∧ pureStale (.jobj wBadAssetFields) = none
    ∧ pureLiq (totalCash [JVal.jobj [("balance", JVal.jstr "n/a")]])
        (.jobj wBadCallFields) = none := by
  have h := claim_data_quality wBadFields
    [.jobj wBadAssetFields] [.jobj wBadCallFields]
    [.jobj [("balance", JVal.jstr "n/a")]] rfl rfl rfl
    (by intro a ha; rw [List.mem_singleton] at ha; subst ha; rfl)
    (by intro l hl; rw [List.mem_singleton] at hl; subst hl; rfl)
    (by intro z hz; rw [List.mem_singleton] at hz; subst hz; rfl)
  refine ⟨?_, ?_, ?_⟩
  · rw [h.1]
    have hs : pureStale (.jobj wBadAssetFields) = none :=
      h.2.1 wBadAssetFields (List.mem_singleton.mpr rfl) rfl
    have hv : pureLiq (totalCash [JVal.jobj [("balance", JVal.jstr "n/a")]])
        (.jobj wBadCallFields) = none :=
      h.2.2.2 wBadCallFields (List.mem_singleton.mpr rfl) rfl
    simp [List.filterMap_cons, hs, hv]
    rfl
  · exact h.2.1 wBadAssetFields (List.mem_singleton.mpr rfl) rfl
  · exact h.2.2.2 wBadCallFields (List.mem_singleton.mpr rfl) rfl

/-- C10 (Implicit default of a missing `value`): a capital call with a
parsable due date inside the 0-90-day window but no `value` field is not
skipped; its value defaults to 0, so it produces no finding when
`total_cash ≥ 0`, but emits a `LiquidityShortfall` with amount
`-total_cash` when total cash is strictly negative. -/
theorem claim_missing_value_default
    (fields : List (String × JVal)) (zs : List JVal)
    (lfs : List (String × JVal)) (s : String) (ymd : Ymd)
    (hC : fields.lookup "cash_accounts" = some (.jarr zs))
    (hz : ∀ z ∈ zs, isObj z = true)
    (hL : (fields.lookup "liabilities").getD (.jarr []) = .jarr [.jobj lfs])
    (htype : (lfs.lookup "type").getD .jnull = .jstr "capital_call")
    (hdd : (lfs.lookup "due_date").getD .jnull = .jstr s)
    (hparse : parseYmd s = some ymd)
    (hwin : 0 ≤ daysBetween ymd TODAY ∧ daysBetween ymd TODAY ≤ 90)
    (hnoval : lfs.lookup "value" = none) :
    (totalCash zs < 0 →
      check_liquidity (.jobj fields)
        = .ok [.liquidityShortfall (-(totalCash zs)) s])
    ∧ (0 ≤ totalCash zs → check_liquidity (.jobj fields) = .ok []) := by
  have hval' : (lfs.lookup "value").getD (.jnum 0) = .jnum 0 := by
    rw [hnoval]; rfl
  have hspec := check_liquidity_spec fields zs [.jobj lfs] hC hz hL
    (by intro l hl; rw [List.mem_singleton] at hl; subst hl; rfl)
  have hchar := pureLiq_char lfs s ymd 0 (totalCash zs) htype hdd hparse hval'
  constructor
  · intro hneg
    have hone : pureLiq (totalCash zs) (.jobj lfs)
        = some (.liquidityShortfall (0 - totalCash zs) s) := by
      rw [hchar, if_pos ⟨hwin.1, hwin.2, hneg⟩]
    rw [hspec]
    simp [List.filterMap_cons, hone, zero_sub]
  · intro hpos
    have hnone : pureLiq (totalCash zs) (.jobj lfs) = none := by
      rw [hchar, if_neg ?_]
      rintro ⟨-, -, hgt⟩
      exact absurd hgt (not_lt.mpr hpos)
    rw [hspec]
    simp [List.filterMap_cons, hnone]

/-- Witness for C10: with total cash `-100` and a value-less capital call
due 17 days out, the engine emits one shortfall of exactly 100; the same
call against nonnegative cash yields nothing. -/
theorem claim_missing_value_default_witness :
    check_liquidity (.jobj wNegCashFields)
      = .ok [Finding.liquidityShortfall 100 "2025-11-20"] := by
  have htr : truthy (JVal.jnum (-100)) = true := by
    simp only [truthy, bne_iff_ne, ne_eq]
    norm_num
  have hcc : cashContrib (.jobj [("balance", JVal.jnum (-100))]) = 0 + (-100) := by
    simp [cashContrib, cashStep, dictGet, List.lookup, htr, toNum?, Except.toOption]
  have htot : totalCash [JVal.jobj [("balance", JVal.jnum (-100))]] = -100 := by
    simp [totalCash, hcc]
  have h := claim_missing_value_default wNegCashFields
    [JVal.jobj [("balance", JVal.jnum (-100))]] wNoValueCallFields
    "2025-11-20" (2025, 11, 20) rfl
    (by intro z hz; rw [List.mem_singleton] at hz; subst hz; rfl)
    rfl rfl rfl rfl (by decide) rfl
  have h1 := h.1 (by rw [htot]; norm_num)
  rw [h1, htot]
  norm_num

end RulesEngine
